import Mathlib

/-!
Shallow embedding of the voxaos voice-assistant core (src/core, src/voice,
src/tools) and proofs about the frozen claims.

Conventions of the embedding:
* Audio frames are `List Int` (the sample values; the int16 to float32
  scaling is a bijection on sample values and is irrelevant to every claim).
* The Silero model's speech probability for a frame is an input to the
  embedded `process_chunk` (the torch model is an external collaborator);
  probabilities and the threshold are rationals, compared exactly as the
  source compares them (`prob >= threshold`).
* The opaque internal state of the torch model is abstracted as a counter
  `model_ctx` that every `process_chunk` call changes and `reset` zeroes,
  mirroring `self.model.reset_states()`.
* Async callbacks (`on_stream_chunk`, `on_confirm_request`, tool handlers,
  STT/LLM/TTS backends) become explicit function or outcome parameters;
  a Python exception raised by a stage becomes an `Except.error` carrying
  the exception text.
* Wall-clock timing (`time.time()` deltas) is not modelled; the THINKING
  latency chunk is emitted with a placeholder payload.
-/

namespace Voxaos

/-- PipelineState enum from src/core/types.py. -/
inductive PipelineState where
  | idle
  | listening
  | processing
  | speaking
deriving DecidableEq, Repr

/-- RiskLevel enum from src/core/types.py. -/
inductive RiskLevel where
  | safe
  | moderate
  | dangerous
deriving DecidableEq, Repr

/-- StreamChunkType enum from src/core/types.py. -/
inductive StreamChunkType where
  | transcript
  | thinking
  | tool_start
  | tool_result
  | text
  | audio
  | state
deriving DecidableEq, Repr

/-- Payload of a StreamChunk (`content: Any` in the source: a string for
text-like chunks, raw audio for AUDIO, a pipeline state for STATE). -/
inductive ChunkPayload where
  | txt : String → ChunkPayload
  | bytes : List Int → ChunkPayload
  | stateVal : PipelineState → ChunkPayload
deriving DecidableEq, Repr

/-- StreamChunk dataclass from src/core/types.py. -/
structure StreamChunk where
  type : StreamChunkType
  content : ChunkPayload
deriving DecidableEq, Repr

/-- ToolCall dataclass from src/core/types.py; `args` is the keyword
mapping, modelled as an association list of string keys to string values. -/
structure ToolCall where
  id : String
  name : String
  args : List (String × String)
deriving DecidableEq, Repr

/-- ToolResult dataclass from src/core/types.py (`is_error` defaults to
False at each construction site below, written explicitly). -/
structure ToolResult where
  tool_call_id : String
  content : String
  is_error : Bool
deriving DecidableEq, Repr

/-! ## Voice-activity segmenter (src/voice/vad.py) -/

/-- Mutable state of `SileroVAD`: the two hysteresis counters, the
`in_speech` flag, and the abstracted torch-model state. -/
structure VADState where
  speech_frames : Nat
  silence_frames : Nat
  in_speech : Bool
  model_ctx : Nat
deriving DecidableEq, Repr

/-- Construction-time parameters of `SileroVAD` that `process_chunk`
reads: the probability threshold and the derived frame counts. -/
structure VADParams where
  threshold : ℚ
  start_frames : Nat
  end_frames : Nat
deriving DecidableEq, Repr

/-- State established by `SileroVAD.__init__` and restored by
`SileroVAD.reset`: both counters zero, `in_speech` false, model state
fresh. -/
def vadResetState : VADState := ⟨0, 0, false, 0⟩

/-- SileroVAD.process_chunk: given the model's speech probability for the
frame, update the hysteresis state and report
(new state, speech_start, speech_end). -/
def process_chunk (prm : VADParams) (s : VADState) (prob : ℚ) :
    VADState × Bool × Bool :=
  let m := s.model_ctx + 1
  let is_speech : Bool := decide (prm.threshold ≤ prob)
  if is_speech then
    let sf := s.speech_frames + 1
    let start : Bool := !s.in_speech && decide (prm.start_frames ≤ sf)
    (⟨sf, 0, s.in_speech || start, m⟩, start, false)
  else
    let sil := s.silence_frames + 1
    let fin : Bool := s.in_speech && decide (prm.end_frames ≤ sil)
    (⟨0, sil, s.in_speech && !fin, m⟩, false, fin)

/-- Per-frame (speech_start, speech_end) reports for a run of frames with
the given probabilities, starting from state `s`. -/
def vadReports (prm : VADParams) : VADState → List ℚ → List (Bool × Bool)
  | _, [] => []
  | s, q :: rest =>
    let r := process_chunk prm s q
    (r.2.1, r.2.2) :: vadReports prm r.1 rest

/-! ## Conversation context store (src/core/context.py) -/

/-- ConversationTurn dataclass. -/
structure ConversationTurn where
  role : String
  content : String
deriving DecidableEq, Repr

/-- Python tail slice `l[-(m):]`: for `m = 0` the slice index is `-0 = 0`,
so the WHOLE list is kept; for `m > 0` the last `m` elements are kept
(clamped to the full list when `m` exceeds the length). -/
def pyTailSlice (m : Nat) (l : List α) : List α :=
  if m = 0 then l else l.drop (l.length - m)

/-- ContextManager.add_turn: append, then trim to the last
`max_history * 2` turns whenever the length exceeds that bound. -/
def add_turn (max_history : Nat) (history : List ConversationTurn)
    (t : ConversationTurn) : List ConversationTurn :=
  let h := history ++ [t]
  if h.length > max_history * 2 then pyTailSlice (max_history * 2) h else h

/-- History after a whole sequence of `add_turn` calls on a freshly
constructed ContextManager. -/
def addTurns (max_history : Nat) (ts : List ConversationTurn) :
    List ConversationTurn :=
  ts.foldl (add_turn max_history) []

/-! ## Agent tool loop (src/core/orchestrator.py, step 5) -/

/-- Result of one `llm.chat` call: `content` (None or a string) and the
requested tool calls. -/
structure LLMResult where
  content : Option String
  tool_calls : List ToolCall
deriving DecidableEq, Repr

/-- The `for _ in range(max_iterations)` tool loop of Orchestrator.process.
The LLM backend is abstracted as the sequence `llm` of chat results (the
result of the i-th chat call, counting from 0); `fuel` is the remaining
iterations, `calls` the number of chat calls made so far, `result` the
current value of the `result` dict (initially `{}`). Returns the total
number of chat calls and the final `result`. -/
def toolLoopAux (llm : Nat → LLMResult) :
    Nat → Nat → LLMResult → Nat × LLMResult
  | 0, calls, result => (calls, result)
  | fuel + 1, calls, _ =>
    let r := llm calls
    if r.tool_calls = [] then (calls + 1, r)
    else toolLoopAux llm fuel (calls + 1) r

/-- The whole tool loop: `result: dict = {}` before the loop corresponds
to `⟨none, []⟩` (no "content" key, no "tool_calls"). -/
def toolLoop (llm : Nat → LLMResult) (max_iterations : Nat) :
    Nat × LLMResult :=
  toolLoopAux llm max_iterations 0 ⟨none, []⟩

/-- `final_text = result.get("content") or ""`: a missing or empty content
yields the empty string. -/
def finalText (result : LLMResult) : String :=
  match result.content with
  | none => ""
  | some s => if s = "" then "" else s

/-! ## Tool registry and risk classifier (src/tools/executor.py) -/

/-- ToolsConfig from src/core/config.py (the fields the executor reads). -/
structure ToolsConfig where
  shell_timeout : Nat
  output_max_chars : Nat
  blocked_commands : List String
deriving DecidableEq, Repr

/-- Character class of Python's regex `\s` and of `str.strip()` over the
ASCII range: space, tab, newline, carriage return, vertical tab, form
feed. -/
def isPySpace (c : Char) : Bool :=
  c = ' ' || c = '\t' || c = '\n' || c = '\r' || c = '\x0b' || c = '\x0c'

/-- One token of a DANGEROUS_PATTERNS regex: a literal character run,
`\s+`, or `\s*` (the only constructs those patterns use). -/
inductive PatTok where
  | lit : List Char → PatTok
  | ws1 : PatTok
  | ws0 : PatTok
deriving DecidableEq, Repr

/-- Match a token sequence against a prefix of `cs`, with backtracking
over how much whitespace `\s+` / `\s*` consume. Structural recursion on a
fuel argument (every recursive call strictly shrinks
`toks.length + cs.length`, so `matchToks` below supplies enough fuel for
the recursion never to bottom out). -/
def matchToksF : Nat → List PatTok → List Char → Bool
  | 0, _, _ => false
  | _ + 1, [], _ => true
  | fuel + 1, PatTok.lit s :: rest, cs =>
    s.isPrefixOf cs && matchToksF fuel rest (cs.drop s.length)
  | _ + 1, PatTok.ws1 :: _, [] => false
  | fuel + 1, PatTok.ws1 :: rest, c :: cs =>
    isPySpace c && matchToksF fuel (PatTok.ws0 :: rest) cs
  | fuel + 1, PatTok.ws0 :: rest, [] => matchToksF fuel rest []
  | fuel + 1, PatTok.ws0 :: rest, c :: cs =>
    matchToksF fuel rest (c :: cs) ||
      (isPySpace c && matchToksF fuel (PatTok.ws0 :: rest) cs)

/-- Match a token sequence against a prefix of `cs`. -/
def matchToks (toks : List PatTok) (cs : List Char) : Bool :=
  matchToksF (toks.length + cs.length + 1) toks cs

/-- Python `re.search`: the pattern matches starting at some position. -/
def reSearch (p : List PatTok) (cs : List Char) : Bool :=
  (List.range (cs.length + 1)).any fun i => matchToks p (cs.drop i)

/-- Python substring test `needle in hay`. -/
def pyContains (needle hay : List Char) : Bool :=
  (List.range (hay.length + 1)).any fun i => needle.isPrefixOf (hay.drop i)

/-- RISK_MAP from src/tools/executor.py. -/
def RISK_MAP : List (String × RiskLevel) :=
  [("read_file", RiskLevel.safe),
   ("list_directory", RiskLevel.safe),
   ("search_files", RiskLevel.safe),
   ("list_processes", RiskLevel.safe),
   ("web_search", RiskLevel.safe),
   ("fetch_page", RiskLevel.safe),
   ("ha_get_states", RiskLevel.safe),
   ("ha_get_state", RiskLevel.safe),
   ("ha_get_history", RiskLevel.safe),
   ("write_file", RiskLevel.moderate),
   ("launch_app", RiskLevel.moderate),
   ("open_url", RiskLevel.moderate),
   ("ha_set_state", RiskLevel.moderate),
   ("ha_call_service", RiskLevel.moderate),
   ("run_shell", RiskLevel.moderate),
   ("kill_process", RiskLevel.dangerous)]

/-- DANGEROUS_PATTERNS from src/tools/executor.py, tokenized (`\x7b` and
`\x7d` are the brace characters of the fork-bomb pattern). -/
def DANGEROUS_PATTERNS : List (List PatTok) :=
  [[PatTok.lit "rm".toList, PatTok.ws1, PatTok.lit "-rf".toList, PatTok.ws1,
    PatTok.lit "/".toList],
   [PatTok.lit "mkfs".toList],
   [PatTok.lit "dd".toList, PatTok.ws1, PatTok.lit "if=/dev".toList],
   [PatTok.lit "shutdown".toList],
   [PatTok.lit "reboot".toList],
   [PatTok.lit ":()\x7b".toList, PatTok.ws0, PatTok.lit ":|:&".toList,
    PatTok.ws0, PatTok.lit "\x7d;:".toList],
   [PatTok.lit "chmod".toList, PatTok.ws1, PatTok.lit "-R".toList, PatTok.ws1,
    PatTok.lit "777".toList, PatTok.ws1, PatTok.lit "/".toList],
   [PatTok.lit ">".toList, PatTok.ws0, PatTok.lit "/dev/sda".toList],
   [PatTok.lit "rm".toList, PatTok.ws1, PatTok.lit "-rf".toList, PatTok.ws1,
    PatTok.lit "~".toList],
   [PatTok.lit "mv".toList, PatTok.ws1, PatTok.lit "/".toList],
   [PatTok.lit ">".toList, PatTok.ws0, PatTok.lit "/etc/".toList]]

/-- Python `dict.get(key, default)` on the args mapping. -/
def argsGetD (args : List (String × String)) (key dflt : String) : String :=
  match args.find? (fun p => p.1 = key) with
  | some p => p.2
  | none => dflt

/-- ToolExecutor.classify_risk: static RISK_MAP lookup (unknown names
default to MODERATE) with the dynamic DANGEROUS upgrade for run_shell
commands that contain a blocked substring or match a dangerous pattern. -/
def classify_risk (config : ToolsConfig) (tool_call : ToolCall) : RiskLevel :=
  let base_risk :=
    ((RISK_MAP.find? (fun p => p.1 = tool_call.name)).map Prod.snd).getD
      RiskLevel.moderate
  if tool_call.name = "run_shell" then
    let command := argsGetD tool_call.args "command" ""
    if config.blocked_commands.any
        (fun blocked => pyContains blocked.toList command.toList) then
      RiskLevel.dangerous
    else if DANGEROUS_PATTERNS.any (fun pat => reSearch pat command.toList) then
      RiskLevel.dangerous
    else base_risk
  else base_risk

/-- A registered tool handler: from the call's kwargs either a string
result or a raised exception, abstracted as (type name, message). -/
def Handler : Type := List (String × String) → Except (String × String) String

/-- Result of ToolExecutor.execute, paired with whether the real handler
was actually invoked. -/
structure ExecOutcome where
  result : ToolResult
  handlerInvoked : Bool
deriving DecidableEq, Repr

/-- Python `result[:max_chars] + "\n...(truncated)"` applied when the
handler's string result exceeds the configured budget. -/
def truncateOutput (max_chars : Nat) (r : String) : String :=
  if r.length > max_chars then r.take max_chars ++ "\n...(truncated)" else r

/-- ToolExecutor.execute: unknown tool becomes an error result; a
DANGEROUS call is gated on the confirmation callback when one is set; the
handler's result is truncated; a handler exception becomes an error
result. `handlers` is the `_handlers` registry, `on_confirm_request` the
optional confirmation callback (a pure decision per call). -/
def execute (config : ToolsConfig) (handlers : String → Option Handler)
    (on_confirm_request : Option (ToolCall → Bool)) (tool_call : ToolCall) :
    ExecOutcome :=
  match handlers tool_call.name with
  | none =>
    ⟨⟨tool_call.id, "Unknown tool: " ++ tool_call.name, true⟩, false⟩
  | some handler =>
    let risk := classify_risk config tool_call
    let run : ExecOutcome :=
      match handler tool_call.args with
      | Except.ok r =>
        ⟨⟨tool_call.id, truncateOutput config.output_max_chars r, false⟩, true⟩
      | Except.error e =>
        ⟨⟨tool_call.id, "Error: " ++ e.1 ++ ": " ++ e.2, true⟩, true⟩
    match on_confirm_request with
    | some confirm =>
      if risk = RiskLevel.dangerous then
        if confirm tool_call then run
        else ⟨⟨tool_call.id, "Operation cancelled by user.", false⟩, false⟩
      else run
    | none => run

/-! ## Turn-taking pipeline (src/voice/pipeline.py) -/

/-- Python `not s.strip()`: true iff the string is empty or entirely
whitespace. -/
def pyIsBlank (s : String) : Bool := s.toList.all isPySpace

/-- Emission through the optional `on_stream_chunk` callback: each
`if self.on_stream_chunk: await self.on_stream_chunk(c)` contributes `c`
exactly when the callback is set. -/
def emitChunk (cb : Bool) (c : StreamChunk) : List StreamChunk :=
  if cb then [c] else []

/-- The STATE chunk `_set_state` sends. -/
def stateChunk (s : PipelineState) : StreamChunk :=
  ⟨StreamChunkType.state, ChunkPayload.stateVal s⟩

/-- A TEXT chunk. -/
def textChunk (s : String) : StreamChunk :=
  ⟨StreamChunkType.text, ChunkPayload.txt s⟩

/-- Outcomes of the three external stages for one utterance:
`stt` is `stt.transcribe` (a transcript, or a raised exception's text),
`orch` is `orchestrator.process` (the Response's text, or a raised
exception), `tts` is `tts.synthesize` (audio, or a raised exception's
text). -/
structure UtterEnv where
  stt : Except String String
  orch : Except String String
  tts : Except String (List Int)
deriving Repr

/-- What one `_process_utterance` invocation leaves behind: the final
pipeline state, the audio buffer, the VAD state, every chunk sent through
`on_stream_chunk` (in order), and the concatenated audio handed to
`stt.transcribe` (none when STT was not invoked). -/
structure UtterOut where
  state : PipelineState
  buffer : List (List Int)
  vad : VADState
  chunks : List StreamChunk
  sttInput : Option (List Int)
deriving DecidableEq, Repr

/-- VoicePipeline._process_utterance, line by line: enter PROCESSING;
an empty buffer goes straight back to IDLE; otherwise concatenate and
clear the buffer, reset the VAD, run STT (an exception yields an empty
transcript plus an apology TEXT chunk), emit the transcript, bail to IDLE
on a blank transcript, run the orchestrator (an exception yields a
degradation TEXT chunk and IDLE), emit the response text, bail to IDLE on
blank response text, enter SPEAKING, run TTS (success emits the AUDIO
chunk, an exception emits a "(Voice unavailable: ...)" TEXT chunk), emit
the latency THINKING chunk (payload abstracted), and finish in IDLE. -/
def process_utterance (cb : Bool) (env : UtterEnv)
    (buffer : List (List Int)) (vad : VADState) : UtterOut :=
  let c0 := emitChunk cb (stateChunk PipelineState.processing)
  if buffer.isEmpty then
    ⟨PipelineState.idle, buffer, vad,
      c0 ++ emitChunk cb (stateChunk PipelineState.idle), none⟩
  else
    let audio := buffer.flatten
    let vad1 := vadResetState
    let sttStep :=
      match env.stt with
      | Except.ok t => (t, ([] : List StreamChunk))
      | Except.error e =>
        ("", emitChunk cb (textChunk ("I couldn\x27t process the audio: " ++ e)))
    let transcript := sttStep.1
    let c1 := c0 ++ sttStep.2 ++
      emitChunk cb ⟨StreamChunkType.transcript, ChunkPayload.txt transcript⟩
    if pyIsBlank transcript then
      ⟨PipelineState.idle, [], vad1,
        c1 ++ emitChunk cb (textChunk "I didn\x27t catch that. Could you repeat?")
           ++ emitChunk cb (stateChunk PipelineState.idle), some audio⟩
    else
      match env.orch with
      | Except.error _ =>
        ⟨PipelineState.idle, [], vad1,
          c1 ++ emitChunk cb (textChunk
              "I\x27m having trouble connecting to my brain. Try again in a moment.")
             ++ emitChunk cb (stateChunk PipelineState.idle), some audio⟩
      | Except.ok rtext =>
        let c2 := c1 ++ emitChunk cb (textChunk rtext)
        if pyIsBlank rtext then
          ⟨PipelineState.idle, [], vad1,
            c2 ++ emitChunk cb (stateChunk PipelineState.idle), some audio⟩
        else
          let c3 := c2 ++ emitChunk cb (stateChunk PipelineState.speaking)
          let c4 :=
            match env.tts with
            | Except.ok a =>
              c3 ++ emitChunk cb ⟨StreamChunkType.audio, ChunkPayload.bytes a⟩
            | Except.error e =>
              c3 ++ emitChunk cb (textChunk ("(Voice unavailable: " ++ e ++ ")"))
          ⟨PipelineState.idle, [], vad1,
            c4 ++ emitChunk cb ⟨StreamChunkType.thinking, ChunkPayload.txt "latency"⟩
               ++ emitChunk cb (stateChunk PipelineState.idle), some audio⟩

/-- The pipeline fields `feed_audio` and `process_push_to_talk` touch. -/
structure PipeState where
  state : PipelineState
  buffer : List (List Int)
  vad : VADState
deriving DecidableEq, Repr

/-- VoicePipeline.feed_audio for one frame (with the model's speech
probability for it): drop the frame while SPEAKING or PROCESSING; else run
the VAD; on speech_start enter LISTENING and clear the buffer; while
LISTENING append the frame; on speech_end while LISTENING run
`_process_utterance`. Returns the new pipeline fields, the audio handed to
STT this step (if an utterance was processed), and the emitted chunks. -/
def feed_audio (prm : VADParams) (cb : Bool) (env : UtterEnv) (p : PipeState)
    (frame : List Int) (prob : ℚ) :
    PipeState × Option (List Int) × List StreamChunk :=
  if p.state = PipelineState.speaking then (p, none, [])
  else if p.state = PipelineState.processing then (p, none, [])
  else
    let step := process_chunk prm p.vad prob
    let vad1 := step.1
    let sStart := step.2.1
    let sEnd := step.2.2
    let st1 := if sStart then PipelineState.listening else p.state
    let cs1 := if sStart then emitChunk cb (stateChunk PipelineState.listening)
      else []
    let buf1 : List (List Int) := if sStart then [] else p.buffer
    let buf2 := if st1 = PipelineState.listening then buf1 ++ [frame] else buf1
    if sEnd = true ∧ st1 = PipelineState.listening then
      let out := process_utterance cb env buf2 vad1
      (⟨out.state, out.buffer, out.vad⟩, out.sttInput, cs1 ++ out.chunks)
    else
      (⟨st1, buf2, vad1⟩, none, cs1)

/-- VoicePipeline.process_push_to_talk: no state check; the buffer is
REPLACED by the single supplied burst and `_process_utterance` runs
immediately. Only `p.vad` of the prior pipeline fields is read. -/
def process_push_to_talk (cb : Bool) (env : UtterEnv) (p : PipeState)
    (burst : List Int) : UtterOut :=
  process_utterance cb env [burst] p.vad

/-- Feed a sequence of (frame, probability) inputs; collect per step the
audio handed to STT (none when no utterance was processed that step). -/
def feedMany (prm : VADParams) (cb : Bool) (env : UtterEnv) :
    PipeState → List (List Int × ℚ) → PipeState × List (Option (List Int))
  | p, [] => (p, [])
  | p, (f, q) :: rest =>
    let r := feed_audio prm cb env p f q
    let rn := feedMany prm cb env r.1 rest
    (rn.1, r.2.1 :: rn.2)

/-- First position (and value) at which a step handed audio to STT. -/
def firstHanded : List (Option α) → Option (Nat × α)
  | [] => none
  | none :: rest => (firstHanded rest).map (fun p => (p.1 + 1, p.2))
  | some a :: _ => some (0, a)

/-! ## Helper lemmas -/

theorem isPrefixOf_append_self (n post : List Char) :
    n.isPrefixOf (n ++ post) = true := by
  induction n with
  | nil => simp [List.isPrefixOf]
  | cons c cs ih => simp [List.isPrefixOf, ih]

theorem pyContains_append (n pre post : List Char) :
    pyContains n (pre ++ (n ++ post)) = true := by
  unfold pyContains
  rw [List.any_eq_true]
  refine ⟨pre.length, ?_, ?_⟩
  · rw [List.mem_range]
    simp [List.length_append]
    omega
  · rw [List.drop_left]
    exact isPrefixOf_append_self n post

/-! ## Claim C5 -/

/-- C5: classify_risk is a pure function of the tool name, the call's args
and the configured blocked_commands list (the call id and any prior call
are irrelevant); kill_process always classifies DANGEROUS; read_file,
list_directory and list_processes always classify SAFE; and a run_shell
call whose command argument contains a configured blocked substring always
classifies DANGEROUS whatever the rest of the command is. -/
theorem C5_classify_risk_pure_and_tiers (config : ToolsConfig) :
    (∀ c1 c2 : ToolCall, c1.name = c2.name → c1.args = c2.args →
      classify_risk config c1 = classify_risk config c2)
    ∧ (∀ i args, classify_risk config ⟨i, "kill_process", args⟩ = RiskLevel.dangerous)
    ∧ (∀ i args, classify_risk config ⟨i, "read_file", args⟩ = RiskLevel.safe)
    ∧ (∀ i args, classify_risk config ⟨i, "list_directory", args⟩ = RiskLevel.safe)
    ∧ (∀ i args, classify_risk config ⟨i, "list_processes", args⟩ = RiskLevel.safe)
    ∧ (∀ i args blocked pre post, blocked ∈ config.blocked_commands →
        (argsGetD args "command" "").toList = pre ++ blocked.toList ++ post →
        classify_risk config ⟨i, "run_shell", args⟩ = RiskLevel.dangerous) := by
  refine ⟨?_, ?_, ?_, ?_, ?_, ?_⟩
  · intro c1 c2 h1 h2
    obtain ⟨i1, n1, a1⟩ := c1
    obtain ⟨i2, n2, a2⟩ := c2
    simp only at h1 h2
    subst h1; subst h2
    simp only [classify_risk]
  · intro i args; rfl
  · intro i args; rfl
  · intro i args; rfl
  · intro i args; rfl
  · intro i args blocked pre post hmem hsplit
    have hany : config.blocked_commands.any
        (fun b => pyContains b.toList (argsGetD args "command" "").toList) = true := by
      refine List.any_eq_true.mpr ⟨blocked, hmem, ?_⟩
      rw [hsplit, List.append_assoc]
      exact pyContains_append blocked.toList pre post
    simp only [classify_risk, hany]
    simp

/-- Witness for C5 at concrete inputs. -/
theorem C5_witness :
    classify_risk ⟨30, 4096, ["curl"]⟩ ⟨"a", "kill_process", [("pid", "1")]⟩ =
      RiskLevel.dangerous
    ∧ classify_risk ⟨30, 4096, ["curl"]⟩ ⟨"b", "read_file", []⟩ = RiskLevel.safe
    ∧ classify_risk ⟨30, 4096, ["curl"]⟩
        ⟨"c", "run_shell", [("command", "ls; curl x")]⟩ = RiskLevel.dangerous
    ∧ classify_risk ⟨30, 4096, ["curl"]⟩ ⟨"d", "kill_process", [("pid", "1")]⟩ =
        classify_risk ⟨30, 4096, ["curl"]⟩ ⟨"e", "kill_process", [("pid", "1")]⟩ := by
  have h := C5_classify_risk_pure_and_tiers ⟨30, 4096, ["curl"]⟩
  refine ⟨h.2.1 "a" [("pid", "1")], h.2.2.1 "b" [], ?_, ?_⟩
  · exact h.2.2.2.2.2 "c" [("command", "ls; curl x")] "curl"
      "ls; ".toList " x".toList (by decide) (by decide)
  · exact h.1 ⟨"d", "kill_process", [("pid", "1")]⟩
      ⟨"e", "kill_process", [("pid", "1")]⟩ rfl rfl

/-! ## Claim C6 -/

/-- C6: ToolExecutor.execute never raises (it is a total function here):
an unregistered tool name yields an error ToolResult identifying the
unknown tool with no handler invoked, and whenever the handler runs and
raises, the outcome is an error ToolResult carrying the exception's type
name and message. -/
theorem C6_execute_total_error_handling (config : ToolsConfig)
    (handlers : String → Option Handler)
    (on_confirm_request : Option (ToolCall → Bool)) (tool_call : ToolCall) :
    (handlers tool_call.name = none →
      execute config handlers on_confirm_request tool_call =
        ⟨⟨tool_call.id, "Unknown tool: " ++ tool_call.name, true⟩, false⟩)
    ∧ (∀ h ty msg, handlers tool_call.name = some h →
        h tool_call.args = Except.error (ty, msg) →
        (execute config handlers on_confirm_request tool_call).handlerInvoked = true →
        (execute config handlers on_confirm_request tool_call).result =
          ⟨tool_call.id, "Error: " ++ ty ++ ": " ++ msg, true⟩) := by
  constructor
  · intro hnone
    simp [execute, hnone]
  · intro h ty msg hsome herr
    simp only [execute, hsome]
    cases on_confirm_request with
    | none => simp [herr]
    | some confirm =>
      by_cases hd : classify_risk config tool_call = RiskLevel.dangerous
      · by_cases hc : confirm tool_call
        · simp [hd, hc, herr]
        · simp [hd, hc]
      · simp [hd, herr]

/-- Witness for C6 at concrete inputs. -/
theorem C6_witness :
    execute ⟨30, 5, []⟩ (fun _ => none) none ⟨"1", "zap", []⟩ =
      ⟨⟨"1", "Unknown tool: zap", true⟩, false⟩
    ∧ (execute ⟨30, 5, []⟩
        (fun _ => some (fun _ => Except.error ("ValueError", "bad"))) none
        ⟨"2", "read_file", []⟩).result =
      ⟨"2", "Error: ValueError: bad", true⟩ := by
  constructor
  · exact (C6_execute_total_error_handling ⟨30, 5, []⟩ (fun _ => none) none
      ⟨"1", "zap", []⟩).1 rfl
  · exact (C6_execute_total_error_handling ⟨30, 5, []⟩
      (fun _ => some (fun _ => Except.error ("ValueError", "bad"))) none
      ⟨"2", "read_file", []⟩).2 _ "ValueError" "bad" rfl rfl (by decide)

/-! ## Claim C3 -/

/-- C3: for a registered tool call classified DANGEROUS: with no
confirmation callback the handler runs unconfirmed; with a callback that
denies, the result is the cancellation message with is_error = false and
the handler never runs; with a callback that approves, the handler runs. -/
theorem C3_dangerous_confirmation_gate (config : ToolsConfig)
    (handlers : String → Option Handler) (tool_call : ToolCall) (hd : Handler)
    (hreg : handlers tool_call.name = some hd)
    (hrisk : classify_risk config tool_call = RiskLevel.dangerous) :
    (execute config handlers none tool_call).handlerInvoked = true
    ∧ (∀ f : ToolCall → Bool, f tool_call = false →
        execute config handlers (some f) tool_call =
          ⟨⟨tool_call.id, "Operation cancelled by user.", false⟩, false⟩)
    ∧ (∀ f : ToolCall → Bool, f tool_call = true →
        (execute config handlers (some f) tool_call).handlerInvoked = true) := by
  refine ⟨?_, ?_, ?_⟩
  · simp only [execute, hreg]
    cases hrun : hd tool_call.args <;> simp [hrun]
  · intro f hf
    simp [execute, hreg, hrisk, hf]
  · intro f hf
    simp only [execute, hreg, hrisk, hf]
    cases hrun : hd tool_call.args <;> simp [hrun]

/-- Witness for C3 at a concrete DANGEROUS call. -/
theorem C3_witness :
    (execute ⟨30, 5, []⟩
      (fun n => if n = "kill_process" then some (fun _ => Except.ok "done") else none)
      none ⟨"1", "kill_process", []⟩).handlerInvoked = true
    ∧ execute ⟨30, 5, []⟩
        (fun n => if n = "kill_process" then some (fun _ => Except.ok "done") else none)
        (some (fun _ => false)) ⟨"1", "kill_process", []⟩ =
      ⟨⟨"1", "Operation cancelled by user.", false⟩, false⟩
    ∧ (execute ⟨30, 5, []⟩
        (fun n => if n = "kill_process" then some (fun _ => Except.ok "done") else none)
        (some (fun _ => true)) ⟨"1", "kill_process", []⟩).handlerInvoked = true := by
  have h := C3_dangerous_confirmation_gate ⟨30, 5, []⟩
    (fun n => if n = "kill_process" then some (fun _ => Except.ok "done") else none)
    ⟨"1", "kill_process", []⟩ (fun _ => Except.ok "done") rfl rfl
  exact ⟨h.1, h.2.1 (fun _ => false) rfl, h.2.2 (fun _ => true) rfl⟩

/-! ## Claim C2 -/

theorem toolLoopAux_calls_le (llm : Nat → LLMResult) :
    ∀ fuel calls res, (toolLoopAux llm fuel calls res).1 ≤ calls + fuel := by
  intro fuel
  induction fuel with
  | zero => intro calls res; simp [toolLoopAux]
  | succ k ih =>
    intro calls res
    simp only [toolLoopAux]
    split
    · omega
    · have := ih (calls + 1) (llm calls)
      omega

theorem toolLoopAux_all_tool_calls (llm : Nat → LLMResult) :
    ∀ fuel calls res, 1 ≤ fuel →
      (∀ i, calls ≤ i → i < calls + fuel → (llm i).tool_calls ≠ []) →
      toolLoopAux llm fuel calls res = (calls + fuel, llm (calls + fuel - 1)) := by
  intro fuel
  induction fuel with
  | zero => intro calls res h; omega
  | succ k ih =>
    intro calls res _ hall
    simp only [toolLoopAux]
    rw [if_neg (hall calls (Nat.le_refl calls) (by omega))]
    cases k with
    | zero => simp [toolLoopAux]
    | succ k2 =>
      rw [ih (calls + 1) (llm calls) (by omega)
        (fun i h1 h2 => hall i (by omega) (by omega))]
      congr 1
      · omega
      · congr 1
        omega

/-- C2: the tool loop of Orchestrator.process makes at most
max_tool_iterations llm.chat calls and terminates; when every iteration
returns tool calls it makes exactly max_tool_iterations calls and the
returned text is the last chat result's content (empty when that content
is empty or absent, including the degenerate max_tool_iterations = 0 case
where no chat call happens and the text is empty). -/
theorem C2_tool_loop_bounded (llm : Nat → LLMResult) (max_iterations : Nat) :
    (toolLoop llm max_iterations).1 ≤ max_iterations
    ∧ ((∀ i, i < max_iterations → (llm i).tool_calls ≠ []) →
        (toolLoop llm max_iterations).1 = max_iterations
        ∧ (1 ≤ max_iterations →
            finalText (toolLoop llm max_iterations).2 =
              finalText (llm (max_iterations - 1)))
        ∧ (max_iterations = 0 →
            finalText (toolLoop llm max_iterations).2 = "")) := by
  refine ⟨?_, ?_⟩
  · have := toolLoopAux_calls_le llm max_iterations 0 ⟨none, []⟩
    simpa [toolLoop] using this
  · intro hall
    refine ⟨?_, ?_, ?_⟩
    · cases hm : max_iterations with
      | zero => simp [toolLoop, toolLoopAux]
      | succ k =>
        have := toolLoopAux_all_tool_calls llm (k + 1) 0 ⟨none, []⟩ (by omega)
          (fun i h1 h2 => hall i (by omega))
        simp only [toolLoop, hm, this]
        omega
    · intro h1
      have := toolLoopAux_all_tool_calls llm max_iterations 0 ⟨none, []⟩ h1
        (fun i hl h2 => hall i (by omega))
      simp only [toolLoop, this, Nat.zero_add]
    · intro h0
      subst h0
      simp [toolLoop, toolLoopAux, finalText]

/-- Witness for C2: an LLM that always requests a tool call, with the
iteration cap 3. -/
theorem C2_witness :
    (toolLoop (fun _ => ⟨some "hi", [⟨"1", "t", []⟩]⟩) 3).1 ≤ 3
    ∧ (toolLoop (fun _ => ⟨some "hi", [⟨"1", "t", []⟩]⟩) 3).1 = 3
    ∧ finalText (toolLoop (fun _ => ⟨some "hi", [⟨"1", "t", []⟩]⟩) 3).2 = "hi" := by
  have h := C2_tool_loop_bounded (fun _ => ⟨some "hi", [⟨"1", "t", []⟩]⟩) 3
  have h2 := h.2 (fun i _ => by simp)
  exact ⟨h.1, h2.1, (h2.2.1 (by omega)).trans rfl⟩

/-! ## Claim C8 -/

theorem addTurns_drop (N : Nat) (hN : 1 ≤ N) :
    ∀ ts : List ConversationTurn, addTurns N ts = ts.drop (ts.length - 2 * N) := by
  intro ts
  induction ts using List.reverseRecOn with
  | nil => simp [addTurns]
  | append_singleton l a ih =>
    have hfold : addTurns N (l ++ [a]) = add_turn N (addTurns N l) a := by
      simp [addTurns, List.foldl_append]
    rw [hfold, ih]
    simp only [add_turn]
    split
    · rename_i h
      have hge : 2 * N ≤ l.length := by
        rw [List.length_append, List.length_drop, List.length_singleton] at h
        omega
      have hdlen : (l.drop (l.length - 2 * N)).length = 2 * N := by
        rw [List.length_drop]; omega
      rw [pyTailSlice, if_neg (by omega : ¬ N * 2 = 0)]
      have hlen2 : (l.drop (l.length - 2 * N) ++ [a]).length = 2 * N + 1 := by
        rw [List.length_append, hdlen, List.length_singleton]
      rw [hlen2]
      have hone : 2 * N + 1 - N * 2 = 1 := by omega
      rw [hone]
      rw [List.drop_append_of_le_length (by omega : 1 ≤ (l.drop (l.length - 2 * N)).length)]
      rw [List.drop_drop]
      have hr : (l ++ [a]).length - 2 * N ≤ l.length := by
        rw [List.length_append, List.length_singleton]; omega
      rw [List.drop_append_of_le_length hr]
      have hidx : l.length - 2 * N + 1 = (l ++ [a]).length - 2 * N := by
        rw [List.length_append, List.length_singleton]; omega
      rw [hidx]
    · rename_i h
      have hlt : l.length < 2 * N := by
        rw [List.length_append, List.length_drop, List.length_singleton] at h
        omega
      have h1 : l.length - 2 * N = 0 := by omega
      have h2 : (l ++ [a]).length - 2 * N = 0 := by
        rw [List.length_append, List.length_singleton]; omega
      rw [h1, h2, List.drop_zero, List.drop_zero]

/-- C8 as stated is false at max_history = 0: Python's `history[-0:]` is
the whole list, so a ContextManager with max_history = 0 never trims and
one add_turn already exceeds 2 x 0 turns. -/
theorem C8_counterexample :
    ¬ ((addTurns 0 [⟨"user", "hi"⟩]).length ≤ 2 * 0) := by
  decide

/-- C8 amended: for max_history = N with N ≥ 1 (the false boundary case
N = 0 excluded), the history after any sequence of add_turn calls is
exactly the most recent 2 x N of the added turns, in insertion order, and
its length never exceeds 2 x N. -/
theorem C8_context_bounded (N : Nat) (ts : List ConversationTurn) (hN : 1 ≤ N) :
    addTurns N ts = ts.drop (ts.length - 2 * N)
    ∧ (addTurns N ts).length ≤ 2 * N := by
  have h := addTurns_drop N hN ts
  refine ⟨h, ?_⟩
  rw [h, List.length_drop]
  omega

/-- Witness for C8 amended: max_history = 1 and three added turns keep
only the last two. -/
theorem C8_witness :
    addTurns 1 [⟨"u", "1"⟩, ⟨"a", "2"⟩, ⟨"u", "3"⟩] = [⟨"a", "2"⟩, ⟨"u", "3"⟩]
    ∧ (addTurns 1 [⟨"u", "1"⟩, ⟨"a", "2"⟩, ⟨"u", "3"⟩]).length ≤ 2 * 1 := by
  have h := C8_context_bounded 1 [⟨"u", "1"⟩, ⟨"a", "2"⟩, ⟨"u", "3"⟩] (by omega)
  exact ⟨h.1.trans (by decide), h.2⟩

/-! ## Claim C7 -/

theorem process_chunk_speech_eq (prm : VADParams) (k sil m : Nat) (q : ℚ)
    (hq : prm.threshold ≤ q) :
    process_chunk prm ⟨k, sil, decide (prm.start_frames ≤ k), m⟩ q =
      (⟨k + 1, 0, decide (prm.start_frames ≤ k + 1), m + 1⟩,
        decide (k + 1 = prm.start_frames), false) := by
  simp only [process_chunk, hq, decide_True, if_true]
  have hins : (decide (prm.start_frames ≤ k) ||
      !decide (prm.start_frames ≤ k) && decide (prm.start_frames ≤ k + 1)) =
      decide (prm.start_frames ≤ k + 1) := by
    rw [← decide_not, ← Bool.decide_and, ← Bool.decide_or]
    exact decide_eq_decide.mpr (by omega)
  have hstart : (!decide (prm.start_frames ≤ k) &&
      decide (prm.start_frames ≤ k + 1)) = decide (k + 1 = prm.start_frames) := by
    rw [← decide_not, ← Bool.decide_and]
    exact decide_eq_decide.mpr (by omega)
  rw [hins, hstart]

theorem process_chunk_silence_eq (prm : VADParams) (sf j m : Nat) (q : ℚ)
    (hq : ¬ prm.threshold ≤ q) :
    process_chunk prm ⟨sf, j, decide (j < prm.end_frames), m⟩ q =
      (⟨0, j + 1, decide (j + 1 < prm.end_frames), m + 1⟩, false,
        decide (j + 1 = prm.end_frames)) := by
  simp only [process_chunk, hq, decide_False, Bool.false_eq_true, if_false]
  have hfin : (decide (j < prm.end_frames) && decide (prm.end_frames ≤ j + 1)) =
      decide (j + 1 = prm.end_frames) := by
    rw [← Bool.decide_and]
    exact decide_eq_decide.mpr (by omega)
  rw [hfin]
  have hins : (decide (j < prm.end_frames) && !decide (j + 1 = prm.end_frames)) =
      decide (j + 1 < prm.end_frames) := by
    rw [← decide_not, ← Bool.decide_and]
    exact decide_eq_decide.mpr (by omega)
  rw [hins]

theorem vadReports_speech (prm : VADParams) :
    ∀ (probs : List ℚ) (k sil m : Nat), (∀ q ∈ probs, prm.threshold ≤ q) →
      ∀ i, i < probs.length →
        (vadReports prm ⟨k, sil, decide (prm.start_frames ≤ k), m⟩ probs).getD i
            (false, false) =
          (decide (k + i + 1 = prm.start_frames), false) := by
  intro probs
  induction probs with
  | nil => intro k sil m hp i hi; simp at hi
  | cons q rest ih =>
    intro k sil m hp i hi
    have hq : prm.threshold ≤ q := hp q (List.mem_cons_self q rest)
    simp only [vadReports, process_chunk_speech_eq prm k sil m q hq]
    cases i with
    | zero => simp
    | succ i2 =>
      have hrest : ∀ p ∈ rest, prm.threshold ≤ p :=
        fun p hmem => hp p (List.mem_cons_of_mem q hmem)
      have hi2 : i2 < rest.length := by simpa using hi
      have := ih (k + 1) 0 (m + 1) hrest i2 hi2
      simp only [List.getD_cons_succ, this]
      congr 1
      refine decide_eq_decide.mpr ?_
      omega

theorem vadReports_silence (prm : VADParams) :
    ∀ (probs : List ℚ) (sf j m : Nat), (∀ q ∈ probs, ¬ prm.threshold ≤ q) →
      ∀ i, i < probs.length →
        (vadReports prm ⟨sf, j, decide (j < prm.end_frames), m⟩ probs).getD i
            (false, false) =
          (false, decide (j + i + 1 = prm.end_frames)) := by
  intro probs
  induction probs with
  | nil => intro sf j m hp i hi; simp at hi
  | cons q rest ih =>
    intro sf j m hp i hi
    have hq : ¬ prm.threshold ≤ q := hp q (List.mem_cons_self q rest)
    simp only [vadReports, process_chunk_silence_eq prm sf j m q hq]
    cases i with
    | zero => simp
    | succ i2 =>
      have hrest : ∀ p ∈ rest, ¬ prm.threshold ≤ p :=
        fun p hmem => hp p (List.mem_cons_of_mem q hmem)
      have hi2 : i2 < rest.length := by simpa using hi
      have := ih 0 (j + 1) (m + 1) hrest i2 hi2
      simp only [List.getD_cons_succ, this]
      congr 1
      refine decide_eq_decide.mpr ?_
      omega

/-- C7: from the reset state, a run of frames at or above the threshold
reports speech_start exactly on the start_frames-th frame of the run (and
on no other frame, in particular never earlier); once in_speech (with the
silence counter cleared, as it is after any speech frame), a run of
sub-threshold frames reports speech_end exactly on the end_frames-th frame
of the run. -/
theorem C7_vad_hysteresis (prm : VADParams) (probs : List ℚ) :
    (1 ≤ prm.start_frames → (∀ q ∈ probs, prm.threshold ≤ q) →
      ∀ i, i < probs.length →
        (vadReports prm vadResetState probs).getD i (false, false) =
          (decide (i + 1 = prm.start_frames), false))
    ∧ (∀ s : VADState, 1 ≤ prm.end_frames → s.in_speech = true →
        s.silence_frames = 0 → (∀ q ∈ probs, q < prm.threshold) →
        ∀ i, i < probs.length →
          (vadReports prm s probs).getD i (false, false) =
            (false, decide (i + 1 = prm.end_frames))) := by
  constructor
  · intro hs hp i hi
    have hstate : vadResetState = ⟨0, 0, decide (prm.start_frames ≤ 0), 0⟩ := by
      simp only [vadResetState]
      congr 1
      rw [eq_comm, decide_eq_false_iff_not]
      omega
    rw [hstate, vadReports_speech prm probs 0 0 0 hp i hi]
    congr 1
    refine decide_eq_decide.mpr ?_
    omega
  · intro s he hin hsil hp i hi
    obtain ⟨sf, sil, insp, m⟩ := s
    simp only at hin hsil
    subst hin; subst hsil
    have hstate : (⟨sf, 0, true, m⟩ : VADState) =
        ⟨sf, 0, decide (0 < prm.end_frames), m⟩ := by
      congr 1
      rw [eq_comm, decide_eq_true_eq]
      omega
    have hp2 : ∀ q ∈ probs, ¬ prm.threshold ≤ q := fun q hmem => by
      have := hp q hmem
      exact not_le.mpr this
    rw [hstate, vadReports_silence prm probs sf 0 m hp2 i hi]
    congr 1
    refine decide_eq_decide.mpr ?_
    omega

/-- Witness for C7: threshold 1, start_frames 2, end_frames 2; two speech
frames trigger speech_start on the second; two silence frames from an
in_speech state trigger speech_end on the second. -/
theorem C7_witness :
    (vadReports ⟨1, 2, 2⟩ vadResetState [1, 1, 1]).getD 1 (false, false) =
      (true, false)
    ∧ (vadReports ⟨1, 2, 2⟩ vadResetState [1, 1, 1]).getD 0 (false, false) =
      (false, false)
    ∧ (vadReports ⟨1, 2, 2⟩ ⟨5, 0, true, 7⟩ [0, 0, 0]).getD 1 (false, false) =
      (false, true) := by
  have h := C7_vad_hysteresis ⟨1, 2, 2⟩ [1, 1, 1]
  have h2 := C7_vad_hysteresis (⟨1, 2, 2⟩ : VADParams) [0, 0, 0]
  refine ⟨?_, ?_, ?_⟩
  · exact (h.1 (by decide) (by intro q hq; fin_cases hq <;> decide) 1
      (by decide)).trans (by decide)
  · exact (h.1 (by decide) (by intro q hq; fin_cases hq <;> decide) 0
      (by decide)).trans (by decide)
  · exact (h2.2 ⟨5, 0, true, 7⟩ (by decide) rfl rfl
      (by intro q hq; fin_cases hq <;> decide) 1 (by decide)).trans (by decide)

/-! ## Pipeline helper lemmas -/

theorem process_utterance_state_idle (cb : Bool) (env : UtterEnv)
    (buffer : List (List Int)) (vad : VADState) :
    (process_utterance cb env buffer vad).state = PipelineState.idle := by
  obtain ⟨stt, orch, tts⟩ := env
  cases stt <;> cases orch <;> cases tts <;> simp only [process_utterance] <;>
    (repeat' split) <;> rfl

theorem process_utterance_nonempty (cb : Bool) (env : UtterEnv)
    (buffer : List (List Int)) (vad : VADState) (h : buffer ≠ []) :
    (process_utterance cb env buffer vad).sttInput = some buffer.flatten
    ∧ (process_utterance cb env buffer vad).buffer = []
    ∧ (process_utterance cb env buffer vad).vad = vadResetState := by
  obtain ⟨stt, orch, tts⟩ := env
  cases buffer with
  | nil => exact absurd rfl h
  | cons b bs =>
    cases stt <;> cases orch <;> cases tts <;> simp only [process_utterance] <;>
      (repeat' split) <;> simp_all

theorem process_utterance_of_empty (cb : Bool) (env : UtterEnv) (vad : VADState) :
    process_utterance cb env [] vad =
      ⟨PipelineState.idle, [], vad,
        emitChunk cb (stateChunk PipelineState.processing) ++
          emitChunk cb (stateChunk PipelineState.idle), none⟩ := by
  obtain ⟨stt, orch, tts⟩ := env
  rfl

/-! ## Claim C1 -/

/-- C1: every _process_utterance invocation (the worker of both the
speech_end and push-to-talk entries) terminates with state IDLE whatever
the STT, agent-loop and TTS outcomes are, and (with the stream-chunk
callback set) an STT failure, a reached agent-loop failure and a reached
TTS failure each emit their user-facing TEXT chunk. -/
theorem C1_utterance_idle_and_failures_surfaced (cb : Bool) (env : UtterEnv)
    (buffer : List (List Int)) (vad : VADState) :
    (process_utterance cb env buffer vad).state = PipelineState.idle
    ∧ (cb = true → ∀ e, buffer ≠ [] → env.stt = Except.error e →
        textChunk ("I couldn\x27t process the audio: " ++ e) ∈
          (process_utterance cb env buffer vad).chunks)
    ∧ (cb = true → ∀ t e2, buffer ≠ [] → env.stt = Except.ok t →
        pyIsBlank t = false → env.orch = Except.error e2 →
        textChunk "I\x27m having trouble connecting to my brain. Try again in a moment."
          ∈ (process_utterance cb env buffer vad).chunks)
    ∧ (cb = true → ∀ t r e3, buffer ≠ [] → env.stt = Except.ok t →
        pyIsBlank t = false → env.orch = Except.ok r → pyIsBlank r = false →
        env.tts = Except.error e3 →
        textChunk ("(Voice unavailable: " ++ e3 ++ ")") ∈
          (process_utterance cb env buffer vad).chunks) := by
  refine ⟨process_utterance_state_idle cb env buffer vad, ?_, ?_, ?_⟩
  · intro hcb e hb hstt
    subst hcb
    obtain ⟨stt, orch, tts⟩ := env
    simp only at hstt
    subst hstt
    cases buffer with
    | nil => exact absurd rfl hb
    | cons b bs =>
      simp [process_utterance, pyIsBlank, emitChunk]
  · intro hcb t e2 hb hstt hblank horch
    subst hcb
    obtain ⟨stt, orch, tts⟩ := env
    simp only at hstt horch
    subst hstt; subst horch
    cases buffer with
    | nil => exact absurd rfl hb
    | cons b bs =>
      simp [process_utterance, hblank, emitChunk]
  · intro hcb t r e3 hb hstt hblank horch hrblank htts
    subst hcb
    obtain ⟨stt, orch, tts⟩ := env
    simp only at hstt horch htts
    subst hstt; subst horch; subst htts
    cases buffer with
    | nil => exact absurd rfl hb
    | cons b bs =>
      simp [process_utterance, hblank, hrblank, emitChunk]

/-- Witness for C1: the three failure scenarios at concrete inputs. -/
theorem C1_witness :
    (process_utterance true ⟨Except.error "boom", Except.ok "x", Except.ok []⟩
        [[1]] vadResetState).state = PipelineState.idle
    ∧ textChunk "I couldn\x27t process the audio: boom" ∈
        (process_utterance true ⟨Except.error "boom", Except.ok "x", Except.ok []⟩
          [[1]] vadResetState).chunks
    ∧ textChunk "I\x27m having trouble connecting to my brain. Try again in a moment."
        ∈ (process_utterance true ⟨Except.ok "hi", Except.error "down", Except.ok []⟩
          [[1]] vadResetState).chunks
    ∧ textChunk "(Voice unavailable: ttsdown)" ∈
        (process_utterance true ⟨Except.ok "hi", Except.ok "resp", Except.error "ttsdown"⟩
          [[1]] vadResetState).chunks := by
  have h1 := C1_utterance_idle_and_failures_surfaced true
    ⟨Except.error "boom", Except.ok "x", Except.ok []⟩ [[1]] vadResetState
  have h2 := C1_utterance_idle_and_failures_surfaced true
    ⟨Except.ok "hi", Except.error "down", Except.ok []⟩ [[1]] vadResetState
  have h3 := C1_utterance_idle_and_failures_surfaced true
    ⟨Except.ok "hi", Except.ok "resp", Except.error "ttsdown"⟩ [[1]] vadResetState
  refine ⟨h1.1, ?_, ?_, ?_⟩
  · exact h1.2.1 rfl "boom" (by simp) rfl
  · exact h2.2.2.1 rfl "hi" "down" (by simp) rfl (by decide) rfl
  · exact h3.2.2.2 rfl "hi" "resp" "ttsdown" (by simp) rfl (by decide) rfl
      (by decide) rfl

/-! ## Claim C4 -/

/-- C4: entering PROCESSING with a non-empty buffer concatenates it
exactly once (the concatenation is what STT receives), leaves the buffer
empty and resets the Segmenter (counters zeroed, in_speech cleared, model
state reset); entering with an empty buffer transitions straight back to
IDLE without invoking STT. -/
theorem C4_processing_entry_resets (cb : Bool) (env : UtterEnv)
    (buffer : List (List Int)) (vad : VADState) :
    (buffer ≠ [] →
      (process_utterance cb env buffer vad).sttInput = some buffer.flatten
      ∧ (process_utterance cb env buffer vad).buffer = []
      ∧ (process_utterance cb env buffer vad).vad = vadResetState)
    ∧ (buffer = [] →
      (process_utterance cb env buffer vad).state = PipelineState.idle
      ∧ (process_utterance cb env buffer vad).sttInput = none
      ∧ (process_utterance cb env buffer vad).buffer = []) := by
  constructor
  · intro h
    exact process_utterance_nonempty cb env buffer vad h
  · intro h
    subst h
    rw [process_utterance_of_empty cb env vad]
    exact ⟨rfl, rfl, rfl⟩

/-- Witness for C4: a non-empty two-frame buffer and the empty buffer. -/
theorem C4_witness :
    (process_utterance true ⟨Except.ok "hi", Except.ok "r", Except.ok []⟩
        [[1], [2]] vadResetState).sttInput = some [1, 2]
    ∧ (process_utterance true ⟨Except.ok "hi", Except.ok "r", Except.ok []⟩
        [[1], [2]] vadResetState).vad = vadResetState
    ∧ (process_utterance true ⟨Except.ok "hi", Except.ok "r", Except.ok []⟩
        [] ⟨3, 4, true, 5⟩).state = PipelineState.idle
    ∧ (process_utterance true ⟨Except.ok "hi", Except.ok "r", Except.ok []⟩
        [] ⟨3, 4, true, 5⟩).sttInput = none := by
  have h1 := C4_processing_entry_resets true
    ⟨Except.ok "hi", Except.ok "r", Except.ok []⟩ [[1], [2]] vadResetState
  have h2 := C4_processing_entry_resets true
    ⟨Except.ok "hi", Except.ok "r", Except.ok []⟩ [] ⟨3, 4, true, 5⟩
  have hne := h1.1 (by simp)
  have he := h2.2 rfl
  exact ⟨hne.1.trans (by decide), hne.2.2, he.1, he.2.1⟩

/-! ## Claim C9 -/

/-- C9: process_push_to_talk performs no state check — its behaviour is
identical in every pipeline state and any previously accumulated buffer is
discarded, the supplied burst alone being handed to STT — while feed_audio
drops its input (nothing changes, nothing is handed on, nothing is
emitted) whenever the state is PROCESSING or SPEAKING. -/
theorem C9_push_to_talk_ignores_state (prm : VADParams) (cb : Bool)
    (env : UtterEnv) :
    (∀ (s1 s2 : PipelineState) (b1 b2 : List (List Int)) (vad : VADState)
        (burst : List Int),
      process_push_to_talk cb env ⟨s1, b1, vad⟩ burst =
        process_push_to_talk cb env ⟨s2, b2, vad⟩ burst)
    ∧ (∀ (p : PipeState) (burst : List Int),
        (process_push_to_talk cb env p burst).sttInput = some burst)
    ∧ (∀ (p : PipeState) (frame : List Int) (prob : ℚ),
        p.state = PipelineState.processing ∨ p.state = PipelineState.speaking →
        feed_audio prm cb env p frame prob = (p, none, [])) := by
  refine ⟨?_, ?_, ?_⟩
  · intro s1 s2 b1 b2 vad burst
    rfl
  · intro p burst
    have h := (process_utterance_nonempty cb env [burst] p.vad (by simp)).1
    simpa [process_push_to_talk] using h
  · intro p frame prob hstate
    cases hstate with
    | inl h => simp [feed_audio, h]
    | inr h => simp [feed_audio, h]

/-- Witness for C9: push-to-talk from the SPEAKING state with a stale
buffer, and a dropped frame while PROCESSING. -/
theorem C9_witness :
    process_push_to_talk true ⟨Except.ok "hi", Except.ok "r", Except.ok []⟩
        ⟨PipelineState.speaking, [[9], [8]], vadResetState⟩ [1, 2] =
      process_push_to_talk true ⟨Except.ok "hi", Except.ok "r", Except.ok []⟩
        ⟨PipelineState.idle, [], vadResetState⟩ [1, 2]
    ∧ (process_push_to_talk true ⟨Except.ok "hi", Except.ok "r", Except.ok []⟩
        ⟨PipelineState.speaking, [[9], [8]], vadResetState⟩ [1, 2]).sttInput =
      some [1, 2]
    ∧ feed_audio ⟨1, 2, 2⟩ true ⟨Except.ok "hi", Except.ok "r", Except.ok []⟩
        ⟨PipelineState.processing, [[9]], vadResetState⟩ [7] 1 =
      (⟨PipelineState.processing, [[9]], vadResetState⟩, none, []) := by
  have h := C9_push_to_talk_ignores_state (⟨1, 2, 2⟩ : VADParams) true
    ⟨Except.ok "hi", Except.ok "r", Except.ok []⟩
  refine ⟨?_, ?_, ?_⟩
  · exact h.1 PipelineState.speaking PipelineState.idle [[9], [8]] [] vadResetState [1, 2]
  · exact h.2.1 ⟨PipelineState.speaking, [[9], [8]], vadResetState⟩ [1, 2]
  · exact h.2.2 ⟨PipelineState.processing, [[9]], vadResetState⟩ [7] 1 (Or.inl rfl)

/-! ## Claim C10 -/

theorem process_chunk_no_start_of_in_speech (prm : VADParams) (s : VADState)
    (q : ℚ) (h : s.in_speech = true) :
    (process_chunk prm s q).2.1 = false := by
  by_cases hq : prm.threshold ≤ q <;> simp [process_chunk, hq, h]

theorem process_chunk_start_cases (prm : VADParams) (s : VADState) (q : ℚ)
    (h : (process_chunk prm s q).2.1 = true) :
    (process_chunk prm s q).2.2 = false
    ∧ (process_chunk prm s q).1.in_speech = true := by
  by_cases hq : prm.threshold ≤ q
  · simp only [process_chunk, hq, decide_True, if_true] at h ⊢
    refine ⟨trivial, ?_⟩
    rw [h, Bool.or_true]
  · simp [process_chunk, hq] at h

theorem process_chunk_in_speech_preserved (prm : VADParams) (s : VADState)
    (q : ℚ) (h : s.in_speech = true)
    (hend : (process_chunk prm s q).2.2 = false) :
    (process_chunk prm s q).1.in_speech = true := by
  by_cases hq : prm.threshold ≤ q
  · simp [process_chunk, hq, h]
  · simp only [process_chunk, hq, decide_False, Bool.false_eq_true, if_false]
      at hend ⊢
    rw [hend, h]
    rfl

theorem feedMany_listening (prm : VADParams) (cb : Bool) (env : UtterEnv) :
    ∀ (inputs : List (List Int × ℚ)) (p : PipeState),
      p.state = PipelineState.listening → p.vad.in_speech = true →
      ∀ k a, firstHanded (feedMany prm cb env p inputs).2 = some (k, a) →
        a = (p.buffer ++ (inputs.take (k + 1)).map Prod.fst).flatten := by
  intro inputs
  induction inputs with
  | nil =>
    intro p hst hin k a hf
    simp [feedMany, firstHanded] at hf
  | cons x rest ih =>
    obtain ⟨f, q⟩ := x
    intro p hst hin k a hf
    have hns := process_chunk_no_start_of_in_speech prm p.vad q hin
    simp only [feedMany] at hf
    by_cases hend : (process_chunk prm p.vad q).2.2 = true
    · have hstt : (feed_audio prm cb env p f q).2.1 =
          (process_utterance cb env (p.buffer ++ [f])
            (process_chunk prm p.vad q).1).sttInput := by
        simp [feed_audio, hst, hns, hend]
      have hval := (process_utterance_nonempty cb env (p.buffer ++ [f])
        (process_chunk prm p.vad q).1 (by simp)).1
      rw [hstt, hval] at hf
      simp only [firstHanded, Option.some.injEq, Prod.mk.injEq] at hf
      obtain ⟨hk, ha⟩ := hf
      subst hk
      rw [← ha]
      simp
    · have hend2 : (process_chunk prm p.vad q).2.2 = false := by
        revert hend
        cases (process_chunk prm p.vad q).2.2 <;> simp
      have h1 : (feed_audio prm cb env p f q).1 =
          ⟨PipelineState.listening, p.buffer ++ [f],
            (process_chunk prm p.vad q).1⟩ := by
        simp [feed_audio, hst, hns, hend2]
      have h2 : (feed_audio prm cb env p f q).2.1 = none := by
        simp [feed_audio, hst, hns, hend2]
      rw [h1, h2] at hf
      simp only [firstHanded] at hf
      obtain ⟨⟨k2, a2⟩, hfh, hpair⟩ := Option.map_eq_some'.mp hf
      simp only [Prod.mk.injEq] at hpair
      obtain ⟨hk, ha⟩ := hpair
      subst hk
      subst ha
      have hin2 := process_chunk_in_speech_preserved prm p.vad q hin hend2
      have := ih ⟨PipelineState.listening, p.buffer ++ [f],
        (process_chunk prm p.vad q).1⟩ rfl hin2 k2 a2 hfh
      simp only at this
      rw [this, List.take_succ_cons, List.map_cons]
      rw [← List.append_cons]

/-- C10: frames fed while the state is IDLE without triggering
speech_start leave the buffer (and the IDLE state) untouched; the frame
that triggers speech_start finds the buffer cleared and becomes its sole
element; and consequently the audio handed to STT at the utterance's end
is exactly the flattening of the triggering frame and the frames fed
after it — pre-trigger audio is excluded. -/
theorem C10_buffer_from_trigger_onward (prm : VADParams) (cb : Bool)
    (env : UtterEnv) :
    (∀ (p : PipeState) (frame : List Int) (prob : ℚ),
      p.state = PipelineState.idle →
      (process_chunk prm p.vad prob).2.1 = false →
      feed_audio prm cb env p frame prob =
        (⟨PipelineState.idle, p.buffer, (process_chunk prm p.vad prob).1⟩,
          none, []))
    ∧ (∀ (p : PipeState) (frame : List Int) (prob : ℚ),
        p.state = PipelineState.idle →
        (process_chunk prm p.vad prob).2.1 = true →
        feed_audio prm cb env p frame prob =
          (⟨PipelineState.listening, [frame], (process_chunk prm p.vad prob).1⟩,
            none, emitChunk cb (stateChunk PipelineState.listening)))
    ∧ (∀ (p : PipeState) (frame : List Int) (prob : ℚ)
          (inputs : List (List Int × ℚ)) (k : Nat) (a : List Int),
        p.state = PipelineState.idle →
        (process_chunk prm p.vad prob).2.1 = true →
        firstHanded (feedMany prm cb env
            (feed_audio prm cb env p frame prob).1 inputs).2 = some (k, a) →
        a = (([frame] : List (List Int)) ++
          (inputs.take (k + 1)).map Prod.fst).flatten) := by
  have hB : ∀ (p : PipeState) (frame : List Int) (prob : ℚ),
      p.state = PipelineState.idle →
      (process_chunk prm p.vad prob).2.1 = true →
      feed_audio prm cb env p frame prob =
        (⟨PipelineState.listening, [frame], (process_chunk prm p.vad prob).1⟩,
          none, emitChunk cb (stateChunk PipelineState.listening)) := by
    intro p frame prob hst hstart
    have hend := (process_chunk_start_cases prm p.vad prob hstart).1
    simp [feed_audio, hst, hstart, hend]
  refine ⟨?_, hB, ?_⟩
  · intro p frame prob hst hns
    simp [feed_audio, hst, hns]
  · intro p frame prob inputs k a hst hstart hf
    have hin := (process_chunk_start_cases prm p.vad prob hstart).2
    rw [hB p frame prob hst hstart] at hf
    have := feedMany_listening prm cb env inputs
      ⟨PipelineState.listening, [frame], (process_chunk prm p.vad prob).1⟩
      rfl hin k a hf
    simpa using this

/-- Witness for C10: a silence frame while IDLE leaves the stale buffer
alone; a trigger frame then two more frames yield exactly those three
frames at STT, the stale pre-trigger audio excluded. -/
theorem C10_witness :
    (feed_audio ⟨1, 1, 1⟩ true ⟨Except.ok "t", Except.ok "r", Except.ok []⟩
        ⟨PipelineState.idle, [[9]], vadResetState⟩ [5] 0).1.buffer = [[9]]
    ∧ firstHanded (feedMany ⟨1, 1, 1⟩ true
        ⟨Except.ok "t", Except.ok "r", Except.ok []⟩
        (feed_audio ⟨1, 1, 1⟩ true ⟨Except.ok "t", Except.ok "r", Except.ok []⟩
          ⟨PipelineState.idle, [[9]], vadResetState⟩ [1] 1).1
        [([2], 1), ([3], 0)]).2 = some (1, [1, 2, 3])
    ∧ ([1, 2, 3] : List Int) =
        (([[1]] : List (List Int)) ++
          (([([2], (1 : ℚ)), ([3], 0)].take 2).map Prod.fst)).flatten := by
  have h := C10_buffer_from_trigger_onward ⟨1, 1, 1⟩ true
    ⟨Except.ok "t", Except.ok "r", Except.ok []⟩
  refine ⟨?_, by decide, ?_⟩
  · rw [h.1 ⟨PipelineState.idle, [[9]], vadResetState⟩ [5] 0 rfl (by decide)]
  · exact h.2.2 ⟨PipelineState.idle, [[9]], vadResetState⟩ [1] 1
      [([2], 1), ([3], 0)] 1 [1, 2, 3] rfl (by decide) (by decide)

end Voxaos
